import Mathlib

/-!
Verification development for the document tree subscription and sync-state
engine of the content-import chatbot repository.

The definitions below are a shallow embedding of the DocumentPicker component
(`subscribeDocument`, `getDocumentsInFolder`, `reSync`) and of the Knowledge
sync-job record.  Stateful React code is embedded as a pure event trace: each
call of the component's effectful functions (`setDocuments`, `fetch`,
`toast.error`, `setIsSubscribing`, `handleStartSync`) becomes one event, in
the order the statements execute.
-/

/-- Embedding of the `Document` record (fields per the DocumentNode data
model used by the picker: id, parentId, title, canHaveChildren, isSubscribed,
storageKey). -/
structure Document where
  id : String
  parentId : Option String
  title : String
  canHaveChildren : Bool
  isSubscribed : Bool
  storageKey : Option String
deriving DecidableEq

/-- Embedding of `getDocumentsInFolder` from the DocumentPicker:

    const getDocumentsInFolder = (folderId) => {
      const result = [];
      const children = documents.filter((doc) => doc.parentId === folderId);
      for (const child of children) {
        result.push(child);
        if (child.canHaveChildren) result.push(...getDocumentsInFolder(child.id));
      }
      return result;
    };

The extra `fuel` argument bounds the recursion depth, which the source leaves
implicit; on an acyclic forest any fuel of at least `docs.length` yields the
same result (proved below), so callers use `docs.length`. -/
def getDocumentsInFolder (docs : List Document) : Nat → String → List Document
  | 0, _ => []
  | fuel + 1, folderId =>
    (docs.filter fun doc => decide (doc.parentId = some folderId)).flatMap fun child =>
      child :: (if child.canHaveChildren then getDocumentsInFolder docs fuel child.id else [])

/-- Embedding of the `documentsToUpdate` computation in `subscribeDocument`:

    const documentsToUpdate = document.canHaveChildren
      ? [document.id, ...getDocumentsInFolder(document.id).map((doc) => doc.id)]
      : [document.id];
-/
def documentsToUpdate (docs : List Document) (d : Document) : List String :=
  if d.canHaveChildren then
    d.id :: (getDocumentsInFolder docs docs.length d.id).map Document.id
  else [d.id]

/-- Embedding of the optimistic `newDocuments` computation in
`subscribeDocument`:

    const newSubscriptionState = !document.isSubscribed;
    const newDocuments = documents.map((doc) => {
      if (documentsToUpdate.includes(doc.id)) {
        return { ...doc, isSubscribed: newSubscriptionState };
      }
      return doc;
    });
-/
def toggleWrite (docs : List Document) (d : Document) : Document → Document :=
  fun doc =>
    if doc.id ∈ documentsToUpdate docs d then
      { doc with isSubscribed := !d.isSubscribed }
    else doc

/-- The optimistic `newDocuments` list: the per-element write mapped over the
current document list. -/
def applyToggle (docs : List Document) (d : Document) : List Document :=
  docs.map (toggleWrite docs d)

/-- Outcome of the persistence request issued by `subscribeDocument`: the
fetch resolves with `response.ok`, resolves with a non-success status, or
throws a transport error. -/
inductive PersistOutcome where
  | ok
  | httpError
  | transportError
deriving DecidableEq

/-- One observable effect of the DocumentPicker component. -/
inductive PickerEvent where
  | setIsSubscribing (b : Bool)
  | setDocuments (docs : List Document)
  | fetchSubscribeRequest (documentIds : List String) (isSubscribed : Bool)
  | toastError
  | startSyncRequest (connectionId : String)
deriving DecidableEq

/-- True exactly on `toastError` events. -/
def PickerEvent.isToast : PickerEvent → Bool
  | .toastError => true
  | _ => false

/-- True exactly on `fetchSubscribeRequest` events. -/
def PickerEvent.isFetch : PickerEvent → Bool
  | .fetchSubscribeRequest _ _ => true
  | _ => false

/-- Embedding of `subscribeDocument` as the ordered trace of effects it
performs, given the outcome of its single persistence request:

    setIsSubscribing(true);
    const currentDocuments = [...documents];
    ... compute documentsToUpdate, newSubscriptionState, newDocuments ...
    setDocuments(newDocuments);                       -- optimistic apply
    try {
      const response = await fetch(..., { body: { documentIds, isSubscribed } });
      if (!response.ok) { setDocuments(currentDocuments); }
    } catch (error) {
      setDocuments(currentDocuments);
      toast.error("Failed to update subscription: " + error);
    } finally {
      setIsSubscribing(false);
    }
-/
def subscribeDocumentTrace (docs : List Document) (d : Document)
    (outcome : PersistOutcome) : List PickerEvent :=
  [PickerEvent.setIsSubscribing true,
   PickerEvent.setDocuments (applyToggle docs d),
   PickerEvent.fetchSubscribeRequest (documentsToUpdate docs d) (!d.isSubscribed)]
  ++ (match outcome with
      | .ok => []
      | .httpError => [PickerEvent.setDocuments docs]
      | .transportError => [PickerEvent.setDocuments docs, PickerEvent.toastError])
  ++ [PickerEvent.setIsSubscribing false]

/-- The document list held by the local store after a trace of events has
run, starting from `docs`: each `setDocuments` replaces the list, every other
event leaves it unchanged. -/
def applyEvents (docs : List Document) (evs : List PickerEvent) : List Document :=
  evs.foldl
    (fun s e =>
      match e with
      | PickerEvent.setDocuments ds => ds
      | _ => s)
    docs

/-- The document list after one complete run of `subscribeDocument`. -/
def subscribeDocumentResult (docs : List Document) (d : Document)
    (outcome : PersistOutcome) : List Document :=
  applyEvents docs (subscribeDocumentTrace docs d outcome)

/-- Embedding of `reSync` as its trace of effects:

    const reSync = async () => {
      setDocuments([]);
      if (integration.connection?.id) {
        handleStartSync({ connectionId: integration.connection.id });
      }
    };
-/
def reSyncTrace (connectionId : Option String) : List PickerEvent :=
  PickerEvent.setDocuments [] ::
    (match connectionId with
     | some cid => [PickerEvent.startSyncRequest cid]
     | none => [])

/-- Ids of the positions at which two equally shaped document lists differ on
the `isSubscribed` field; used to express which nodes a toggle changed. -/
def changedIds (before after : List Document) : List String :=
  ((before.zip after).filter fun p => p.1.isSubscribed != p.2.isSubscribed).map
    fun p => p.1.id

/-- Transitive descendants of the node with id `rootId`, reached by following
`parentId` links inside `docs`: the spec's subtree of a folder. -/
inductive InSubtree (docs : List Document) : String → Document → Prop where
  | base (rootId : String) (d : Document) :
      d ∈ docs → d.parentId = some rootId → InSubtree docs rootId d
  | step (rootId : String) (c d : Document) :
      c ∈ docs → c.parentId = some rootId → InSubtree docs c.id d →
      InSubtree docs rootId d

/-- Heights strictly decrease from parent to child inside `docs`; the
existence of such a height function is the acyclicity of the parentId
relation restricted to `docs`. -/
def ParentDecreasing (docs : List Document) (height : String → Nat) : Prop :=
  ∀ c ∈ docs, ∀ p ∈ docs, c.parentId = some p.id → height c.id < height p.id

/-- The document list forms a forest: the parentId relation is acyclic,
witnessed by a height function bounded by the number of documents. -/
def IsForest (docs : List Document) : Prop :=
  ∃ height : String → Nat,
    ParentDecreasing docs height ∧ ∀ d ∈ docs, height d.id ≤ docs.length

/-- Every parent reference points at a document present in the list that is a
container (the data model invariant on `parentId`). -/
def WellFormedParents (docs : List Document) : Prop :=
  ∀ c ∈ docs, ∀ pid, c.parentId = some pid →
    ∃ p ∈ docs, p.id = pid ∧ p.canHaveChildren = true

/-- Embedding of the sync job status enum from the Knowledge model. -/
inductive KnowledgeStatus where
  | in_progress
  | completed
  | failed
deriving DecidableEq

/-- Embedding of the `Knowledge` record (one sync job per connection);
`syncStatus` and `isTruncated` are independent fields, as in the schema. -/
structure Knowledge where
  userId : String
  connectionId : String
  integrationId : String
  integrationName : String
  integrationLogo : Option String
  documents : List Document
  syncStatus : Option KnowledgeStatus
  syncStartedAt : Option Nat
  syncCompletedAt : Option Nat
  syncError : Option String
  isTruncated : Bool
deriving DecidableEq

/-- Ingestion cap on one sync job, per the truncation notice in the picker
("Sync was truncated to 1000 documents"). -/
def MAX_SYNC_DOCUMENTS : Nat := 1000

/-- Modelled from the spec: the backend sync completion step (the ingestion
route is not part of the picker sources).  On an unrecoverable error the job
becomes `failed` with `syncError` set; otherwise the listing is ingested, cut
off at the 1000-document cap, and the job becomes `completed`, with
`isTruncated` recording whether the cap cut the listing off. -/
def finishSync (k : Knowledge) (listing : List Document) (err : Option String)
    (completedAt : Nat) : Knowledge :=
  match err with
  | some e =>
      { k with
        syncStatus := some KnowledgeStatus.failed
        syncError := some e
        syncCompletedAt := some completedAt }
  | none =>
      { k with
        syncStatus := some KnowledgeStatus.completed
        syncError := none
        documents := listing.take MAX_SYNC_DOCUMENTS
        isTruncated := decide (MAX_SYNC_DOCUMENTS < listing.length)
        syncCompletedAt := some completedAt }

/-- A two-node forest used as a concrete input: a folder holding one file. -/
def cexF : Document :=
  { id := "f", parentId := none, title := "Folder", canHaveChildren := true,
    isSubscribed := false, storageKey := none }

/-- The file inside `cexF`, already subscribed while its parent is not. -/
def cexA : Document :=
  { id := "a", parentId := some "f", title := "File", canHaveChildren := false,
    isSubscribed := true, storageKey := none }

/-- The two-node document list `[cexF, cexA]`. -/
def cexDocs : List Document := [cexF, cexA]

/-- A concrete sync job record used to instantiate theorems. -/
def cexKnowledge : Knowledge :=
  { userId := "u", connectionId := "c", integrationId := "i",
    integrationName := "n", integrationLogo := none, documents := [],
    syncStatus := some KnowledgeStatus.in_progress, syncStartedAt := some 0,
    syncCompletedAt := none, syncError := none, isTruncated := false }

/-- The success path leaves the optimistic list in place. -/
theorem subscribeDocumentResult_ok (docs : List Document) (d : Document) :
    subscribeDocumentResult docs d PersistOutcome.ok = applyToggle docs d := rfl

/-- Claim C2: for every toggle whose persistence step fails, whether by a
non-success HTTP response or by a thrown transport error, the document list
after rollback is exactly the list as it was immediately before the toggle
was issued. -/
theorem subscribeDocument_rollback_exact (docs : List Document) (d : Document) :
    subscribeDocumentResult docs d PersistOutcome.httpError = docs ∧
    subscribeDocumentResult docs d PersistOutcome.transportError = docs :=
  ⟨rfl, rfl⟩

/-- Claim C4, evaluated on the code: a toggle whose persistence request
resolves with a non-success response produces no error notification at all
(the toast is only issued from the catch branch, on a thrown transport
error), while neither failure mode ever issues a second persistence request:
every trace contains exactly one fetch. -/
theorem subscribeDocument_error_signals (docs : List Document) (d : Document) :
    (subscribeDocumentTrace docs d PersistOutcome.httpError).countP
        PickerEvent.isToast = 0 ∧
    (subscribeDocumentTrace docs d PersistOutcome.transportError).countP
        PickerEvent.isToast = 1 ∧
    ∀ o : PersistOutcome,
      (subscribeDocumentTrace docs d o).countP PickerEvent.isFetch = 1 := by
  refine ⟨rfl, rfl, fun o => ?_⟩
  cases o <;> rfl

/-- Claim C5: the single target value written by a toggle on `d` is the
negation of `d`'s pre-toggle `isSubscribed`; every affected node receives
this same value regardless of its own prior value. -/
theorem subscribeDocument_target_value (docs : List Document) (d x : Document)
    (hx : x ∈ applyToggle docs d) (hid : x.id ∈ documentsToUpdate docs d) :
    x.isSubscribed = !d.isSubscribed := by
  simp only [applyToggle, List.mem_map] at hx
  obtain ⟨doc, _, rfl⟩ := hx
  by_cases h : doc.id ∈ documentsToUpdate docs d
  · simp [toggleWrite, h]
  · simp only [toggleWrite, if_neg h] at hid ⊢
    exact absurd hid h

/-- Claim C5 witness at the two-node forest. -/
theorem subscribeDocument_target_value_witness :
    ({ cexF with isSubscribed := true } : Document) ∈ applyToggle cexDocs cexF ∧
    ({ cexF with isSubscribed := true } : Document).id ∈ documentsToUpdate cexDocs cexF ∧
    ({ cexF with isSubscribed := true } : Document).isSubscribed = !cexF.isSubscribed :=
  ⟨by decide, by decide,
   subscribeDocument_target_value cexDocs cexF _ (by decide) (by decide)⟩

/-- Claim C6: resync immediately clears the local store — after the first
event of its trace, and at every later point, the store holds zero documents
— and, when the connection id is present, a fresh sync start request is then
issued (strictly after the clear). -/
theorem reSync_reset (docs : List Document) (cid : Option String) :
    (∀ k, 1 ≤ k → applyEvents docs ((reSyncTrace cid).take k) = []) ∧
    (∀ c, cid = some c → PickerEvent.startSyncRequest c ∈ reSyncTrace cid) ∧
    ∀ c k, (reSyncTrace cid).get? k = some (PickerEvent.startSyncRequest c) →
      1 ≤ k := by
  refine ⟨fun k hk => ?_, fun c hc => ?_, fun c k hk => ?_⟩
  · cases cid <;>
      · match k, hk with
        | 1, _ => rfl
        | k + 2, _ => simp [reSyncTrace, applyEvents, List.take_nil]
  · subst hc
    simp [reSyncTrace]
  · cases cid <;>
      · match k, hk with
        | 0, hk => simp [reSyncTrace] at hk
        | k + 1, _ => omega

/-- Claim C6 witness: resync on a store holding a document, with a present
connection id. -/
theorem reSync_reset_witness :
    applyEvents cexDocs ((reSyncTrace (some "c")).take 1) = [] ∧
    PickerEvent.startSyncRequest "c" ∈ reSyncTrace (some "c") :=
  ⟨(reSync_reset cexDocs (some "c")).1 1 (by decide),
   (reSync_reset cexDocs (some "c")).2.1 "c" rfl⟩

/-- Claim C7: within one toggle operation the optimistic store write is
strictly before the persistence request: the trace has the optimistic
`setDocuments` at position 1, the fetch at position 2, the fetch is the only
fetch of the trace, and at the moment the fetch is issued the store already
holds the optimistic list. -/
theorem subscribeDocument_optimistic_order (docs : List Document) (d : Document)
    (o : PersistOutcome) :
    (subscribeDocumentTrace docs d o).get? 1 =
        some (PickerEvent.setDocuments (applyToggle docs d)) ∧
    (subscribeDocumentTrace docs d o).get? 2 =
        some (PickerEvent.fetchSubscribeRequest (documentsToUpdate docs d)
          (!d.isSubscribed)) ∧
    (subscribeDocumentTrace docs d o).countP PickerEvent.isFetch = 1 ∧
    applyEvents docs ((subscribeDocumentTrace docs d o).take 2) =
        applyToggle docs d := by
  cases o <;> exact ⟨rfl, rfl, rfl, rfl⟩

/-- Claim C8: a sync job that hits the 1000-document ingestion cap ends with
status `completed` and `isTruncated = true`; it never ends `failed` because
of truncation, the two being independent fields of the job record. -/
theorem syncJob_truncation_not_failure (k : Knowledge) (listing : List Document)
    (t : Nat) (h : MAX_SYNC_DOCUMENTS < listing.length) :
    (finishSync k listing none t).syncStatus = some KnowledgeStatus.completed ∧
    (finishSync k listing none t).isTruncated = true ∧
    (finishSync k listing none t).syncStatus ≠ some KnowledgeStatus.failed :=
  ⟨rfl, decide_eq_true h,
   fun hc => KnowledgeStatus.noConfusion (Option.some.inj hc)⟩

/-- Claim C8 witness: a 1001-document listing. -/
theorem syncJob_truncation_not_failure_witness :
    MAX_SYNC_DOCUMENTS < (List.replicate 1001 cexF).length ∧
    ((finishSync cexKnowledge (List.replicate 1001 cexF) none 5).syncStatus =
        some KnowledgeStatus.completed ∧
      (finishSync cexKnowledge (List.replicate 1001 cexF) none 5).isTruncated = true ∧
      (finishSync cexKnowledge (List.replicate 1001 cexF) none 5).syncStatus ≠
        some KnowledgeStatus.failed) :=
  ⟨by norm_num [MAX_SYNC_DOCUMENTS],
   syncJob_truncation_not_failure cexKnowledge (List.replicate 1001 cexF) 5
     (by norm_num [MAX_SYNC_DOCUMENTS])⟩

/-- Claim C9: a toggle's optimistic apply touches only the `isSubscribed`
field — `id`, `parentId`, `title`, `canHaveChildren` and `storageKey` of
every position are unchanged and the length and order of the list are
preserved — and a rollback restores the pre-toggle list exactly. -/
theorem subscribeDocument_frame (docs : List Document) (d : Document) :
    (applyToggle docs d).length = docs.length ∧
    (∀ i (h1 : i < docs.length) (h2 : i < (applyToggle docs d).length),
      (applyToggle docs d)[i].id = docs[i].id ∧
      (applyToggle docs d)[i].parentId = docs[i].parentId ∧
      (applyToggle docs d)[i].title = docs[i].title ∧
      (applyToggle docs d)[i].canHaveChildren = docs[i].canHaveChildren ∧
      (applyToggle docs d)[i].storageKey = docs[i].storageKey) ∧
    subscribeDocumentResult docs d PersistOutcome.httpError = docs ∧
    subscribeDocumentResult docs d PersistOutcome.transportError = docs := by
  refine ⟨List.length_map docs _, fun i h1 h2 => ?_, rfl, rfl⟩
  simp only [applyToggle, List.getElem_map]
  by_cases h : docs[i].id ∈ documentsToUpdate docs d <;> simp [toggleWrite, h]

/-- Claim C9 witness at the two-node forest. -/
theorem subscribeDocument_frame_witness :
    (0 : Nat) < cexDocs.length ∧ (0 : Nat) < (applyToggle cexDocs cexF).length ∧
    (applyToggle cexDocs cexF)[0].id = cexDocs[0].id :=
  ⟨by decide, by decide,
   ((subscribeDocument_frame cexDocs cexF).2.1 0 (by decide) (by decide)).1⟩

/-- A folder id with no children in the list yields the empty result at every
fuel. -/
lemma getDocumentsInFolder_no_children (docs : List Document) (fid : String)
    (h : docs.filter (fun doc => decide (doc.parentId = some fid)) = []) :
    ∀ fuel, getDocumentsInFolder docs fuel fid = [] := by
  intro fuel
  cases fuel with
  | zero => rfl
  | succ fuel =>
    simp only [getDocumentsInFolder, h]
    rfl

/-- On an acyclic list the fuel is irrelevant once it dominates the height of
the folder being listed. -/
lemma getDocumentsInFolder_stable (docs : List Document) (height : String → Nat)
    (hdec : ParentDecreasing docs height) (hwf : WellFormedParents docs) :
    ∀ f1 fid f2, height fid ≤ f1 → height fid ≤ f2 →
      getDocumentsInFolder docs f1 fid = getDocumentsInFolder docs f2 fid := by
  intro f1
  induction f1 using Nat.strong_induction_on with
  | _ f1 ih =>
    intro fid f2 h1 h2
    rcases hch : docs.filter (fun doc => decide (doc.parentId = some fid)) with _ | ⟨c, cs⟩
    · rw [getDocumentsInFolder_no_children docs fid hch f1,
        getDocumentsInFolder_no_children docs fid hch f2]
    · have hcmem : c ∈ docs.filter (fun doc => decide (doc.parentId = some fid)) := by
        rw [hch]; exact List.mem_cons_self _ _
      obtain ⟨hcdocs, hcp⟩ := List.mem_filter.mp hcmem
      have hcp' : c.parentId = some fid := of_decide_eq_true hcp
      obtain ⟨p, hpmem, hpid, _⟩ := hwf c hcdocs fid hcp'
      have hlt : height c.id < height fid := by
        have := hdec c hcdocs p hpmem (by rw [hpid]; exact hcp')
        rwa [hpid] at this
      have hpos : 0 < height fid := Nat.lt_of_le_of_lt (Nat.zero_le _) hlt
      obtain ⟨a, rfl⟩ : ∃ a, f1 = a + 1 := ⟨f1 - 1, by omega⟩
      obtain ⟨b, rfl⟩ : ∃ b, f2 = b + 1 := ⟨f2 - 1, by omega⟩
      simp only [getDocumentsInFolder]
      refine List.flatMap_congr fun x hx => ?_
      obtain ⟨hxdocs, hxp⟩ := List.mem_filter.mp hx
      have hxp' : x.parentId = some fid := of_decide_eq_true hxp
      obtain ⟨q, hqmem, hqid, _⟩ := hwf x hxdocs fid hxp'
      have hxlt : height x.id < height fid := by
        have := hdec x hxdocs q hqmem (by rw [hqid]; exact hxp')
        rwa [hqid] at this
      by_cases hcc : x.canHaveChildren
      · rw [if_pos hcc, if_pos hcc,
          ih a (Nat.lt_succ_self a) x.id b (by omega) (by omega)]
      · rw [if_neg hcc, if_neg hcc]

/-- Everything `getDocumentsInFolder` returns is a transitive descendant of
the folder, at any fuel. -/
lemma mem_getDocumentsInFolder_sound (docs : List Document) :
    ∀ fuel fid d, d ∈ getDocumentsInFolder docs fuel fid → InSubtree docs fid d := by
  intro fuel
  induction fuel with
  | zero =>
    intro fid d h
    exact absurd h (List.not_mem_nil d)
  | succ fuel ih =>
    intro fid d h
    simp only [getDocumentsInFolder, List.mem_flatMap] at h
    obtain ⟨c, hcf, hd⟩ := h
    obtain ⟨hcdocs, hcp⟩ := List.mem_filter.mp hcf
    have hcp' : c.parentId = some fid := of_decide_eq_true hcp
    rcases List.mem_cons.mp hd with rfl | hd'
    · exact InSubtree.base fid d hcdocs hcp'
    · by_cases hcc : c.canHaveChildren
      · rw [if_pos hcc] at hd'
        exact InSubtree.step fid c d hcdocs hcp' (ih c.id d hd')
      · rw [if_neg hcc] at hd'
        exact absurd hd' (List.not_mem_nil d)

/-- A nonempty subtree exhibits at least one direct child of its root. -/
lemma InSubtree.exists_child_doc {docs : List Document} {rootId : String}
    {d : Document} (h : InSubtree docs rootId d) :
    ∃ e ∈ docs, e.parentId = some rootId := by
  cases h with
  | base rootId d hmem hp => exact ⟨d, hmem, hp⟩
  | step rootId c d hcmem hcp _ => exact ⟨c, hcmem, hcp⟩

/-- Every transitive descendant of `fid` is returned once the fuel dominates
the height of `fid`; needs parent references to land on containers in the
list and ids to be unique. -/
lemma mem_getDocumentsInFolder_complete (docs : List Document)
    (height : String → Nat) (hdec : ParentDecreasing docs height)
    (hwf : WellFormedParents docs) (hnd : (docs.map Document.id).Nodup)
    {fid : String} {d : Document} (h : InSubtree docs fid d) :
    ∀ fuel, height fid ≤ fuel → d ∈ getDocumentsInFolder docs fuel fid := by
  induction h with
  | base rootId d hmem hp =>
    intro fuel hfuel
    obtain ⟨p, hpmem, hpid, _⟩ := hwf d hmem rootId hp
    have hlt : height d.id < height rootId := by
      have := hdec d hmem p hpmem (by rw [hpid]; exact hp)
      rwa [hpid] at this
    obtain ⟨a, rfl⟩ : ∃ a, fuel = a + 1 := ⟨fuel - 1, by omega⟩
    simp only [getDocumentsInFolder, List.mem_flatMap]
    exact ⟨d, List.mem_filter.mpr ⟨hmem, decide_eq_true hp⟩, List.mem_cons_self _ _⟩
  | step rootId c d hcmem hcp hsub ih =>
    intro fuel hfuel
    obtain ⟨p, hpmem, hpid, _⟩ := hwf c hcmem rootId hcp
    have hlt : height c.id < height rootId := by
      have := hdec c hcmem p hpmem (by rw [hpid]; exact hcp)
      rwa [hpid] at this
    obtain ⟨a, rfl⟩ : ∃ a, fuel = a + 1 := ⟨fuel - 1, by omega⟩
    obtain ⟨e, hemem, hep⟩ := hsub.exists_child_doc
    obtain ⟨q, hqmem, hqid, hqc⟩ := hwf e hemem c.id hep
    have hqeq : q = c := List.inj_on_of_nodup_map hnd hqmem hcmem hqid
    have hcc : c.canHaveChildren = true := by rw [← hqeq]; exact hqc
    simp only [getDocumentsInFolder, List.mem_flatMap]
    refine ⟨c, List.mem_filter.mpr ⟨hcmem, decide_eq_true hcp⟩, ?_⟩
    refine List.mem_cons.mpr (Or.inr ?_)
    rw [if_pos hcc]
    exact ih a (by omega)

/-- Membership in the changed-id list of a pointwise rewrite of the list. -/
lemma mem_changedIds_map (l : List Document) (g : Document → Document) (x : String) :
    x ∈ changedIds l (l.map g) ↔
      ∃ d ∈ l, d.id = x ∧ d.isSubscribed ≠ (g d).isSubscribed := by
  have hz : l.zip (l.map g) = l.map fun a => (a, g a) := by
    have h := List.zip_map' id g l
    rwa [List.map_id] at h
  unfold changedIds
  rw [hz, List.filter_map, List.map_map]
  simp only [List.mem_map, List.mem_filter, Function.comp, bne_iff_ne, ne_eq]
  constructor
  · rintro ⟨d, ⟨hdl, hne⟩, rfl⟩
    exact ⟨d, hdl, rfl, hne⟩
  · rintro ⟨d, hdl, rfl, hne⟩
    exact ⟨d, ⟨hdl, hne⟩, rfl⟩

/-- The ids a toggle actually changes: exactly the affected ids whose prior
value coincides with the toggled node's prior value. -/
lemma mem_changedIds_applyToggle (docs : List Document) (n : Document) (x : String) :
    x ∈ changedIds docs (applyToggle docs n) ↔
      x ∈ documentsToUpdate docs n ∧
        ∃ d ∈ docs, d.id = x ∧ d.isSubscribed = n.isSubscribed := by
  rw [applyToggle, mem_changedIds_map]
  constructor
  · rintro ⟨d, hdl, rfl, hne⟩
    by_cases h : d.id ∈ documentsToUpdate docs n
    · simp only [toggleWrite, if_pos h] at hne
      refine ⟨h, d, hdl, rfl, ?_⟩
      revert hne
      cases hd : d.isSubscribed <;> cases hn : n.isSubscribed <;> simp
    · simp only [toggleWrite, if_neg h] at hne
      exact absurd rfl hne
  · rintro ⟨hx, d, hdl, rfl, hds⟩
    refine ⟨d, hdl, rfl, ?_⟩
    simp only [toggleWrite, if_pos hx, hds]
    cases n.isSubscribed <;> simp

/-- Membership in the affected-id list computed by `subscribeDocument`,
characterised against the spec's descendant set. -/
lemma mem_documentsToUpdate (docs : List Document) (height : String → Nat)
    (hdec : ParentDecreasing docs height)
    (hbound : ∀ x ∈ docs, height x.id ≤ docs.length)
    (hwf : WellFormedParents docs) (hnd : (docs.map Document.id).Nodup)
    (n : Document) (hn : n ∈ docs) (x : String) :
    x ∈ documentsToUpdate docs n ↔
      x = n.id ∨
        (n.canHaveChildren = true ∧ ∃ d, InSubtree docs n.id d ∧ d.id = x) := by
  unfold documentsToUpdate
  by_cases hc : n.canHaveChildren
  · rw [if_pos hc]
    simp only [List.mem_cons, List.mem_map]
    constructor
    · rintro (rfl | ⟨d, hd, rfl⟩)
      · exact Or.inl rfl
      · exact Or.inr ⟨hc, d, mem_getDocumentsInFolder_sound docs _ _ _ hd, rfl⟩
    · rintro (rfl | ⟨_, d, hd, rfl⟩)
      · exact Or.inl rfl
      · exact Or.inr ⟨d,
          mem_getDocumentsInFolder_complete docs height hdec hwf hnd hd
            docs.length (hbound n hn), rfl⟩
  · rw [if_neg hc]
    simp only [List.mem_singleton]
    constructor
    · exact fun h => Or.inl h
    · rintro (rfl | ⟨hcc, _⟩)
      · rfl
      · exact absurd hcc hc

/-- The per-element toggle write keeps the id. -/
lemma toggleWrite_id (docs : List Document) (n x : Document) :
    (toggleWrite docs n x).id = x.id := by
  unfold toggleWrite
  by_cases h : x.id ∈ documentsToUpdate docs n
  · rw [if_pos h]
  · rw [if_neg h]

/-- The per-element toggle write keeps the parent reference. -/
lemma toggleWrite_parentId (docs : List Document) (n x : Document) :
    (toggleWrite docs n x).parentId = x.parentId := by
  unfold toggleWrite
  by_cases h : x.id ∈ documentsToUpdate docs n
  · rw [if_pos h]
  · rw [if_neg h]

/-- The per-element toggle write keeps the container flag. -/
lemma toggleWrite_canHaveChildren (docs : List Document) (n x : Document) :
    (toggleWrite docs n x).canHaveChildren = x.canHaveChildren := by
  unfold toggleWrite
  by_cases h : x.id ∈ documentsToUpdate docs n
  · rw [if_pos h]
  · rw [if_neg h]

/-- Listing a folder commutes with any pointwise rewrite of the documents
that keeps ids, parent references and container flags. -/
lemma getDocumentsInFolder_map_structure (docs : List Document)
    (g : Document → Document) (hid : ∀ x, (g x).id = x.id)
    (hp : ∀ x, (g x).parentId = x.parentId)
    (hc : ∀ x, (g x).canHaveChildren = x.canHaveChildren) :
    ∀ fuel fid,
      getDocumentsInFolder (docs.map g) fuel fid =
        (getDocumentsInFolder docs fuel fid).map g := by
  intro fuel
  induction fuel with
  | zero => intro fid; rfl
  | succ fuel ih =>
    intro fid
    simp only [getDocumentsInFolder]
    rw [List.filter_map,
      show ((fun doc => decide (doc.parentId = some fid)) ∘ g) =
          fun doc => decide (doc.parentId = some fid) by
        funext x; simp [Function.comp, hp x],
      List.flatMap_map, List.map_flatMap]
    refine List.flatMap_congr fun x hx => ?_
    rw [List.map_cons, apply_ite (List.map g), List.map_nil, hc x, hid x, ih x.id]

/-- Toggling leaves the affected-id computation unchanged: the second toggle
on the updated node sees the same affected set. -/
lemma documentsToUpdate_applyToggle (docs : List Document) (n n' : Document)
    (hid : n'.id = n.id) (hc : n'.canHaveChildren = n.canHaveChildren) :
    documentsToUpdate (applyToggle docs n) n' = documentsToUpdate docs n := by
  unfold documentsToUpdate
  rw [hid, hc, applyToggle, List.length_map,
    getDocumentsInFolder_map_structure docs (toggleWrite docs n)
      (toggleWrite_id docs n) (toggleWrite_parentId docs n)
      (toggleWrite_canHaveChildren docs n) docs.length n.id,
    List.map_map,
    show (Document.id ∘ toggleWrite docs n) = Document.id from
      funext fun x => toggleWrite_id docs n x]

/-- The per-element toggle write on an affected document. -/
lemma toggleWrite_apply_mem (docs : List Document) (n x : Document)
    (h : x.id ∈ documentsToUpdate docs n) :
    toggleWrite docs n x = { x with isSubscribed := !n.isSubscribed } := by
  unfold toggleWrite; rw [if_pos h]

/-- The per-element toggle write on an unaffected document. -/
lemma toggleWrite_apply_not_mem (docs : List Document) (n x : Document)
    (h : x.id ∉ documentsToUpdate docs n) : toggleWrite docs n x = x := by
  unfold toggleWrite; rw [if_neg h]

/-- The two-node example is a forest. -/
lemma cexDocs_forest : IsForest cexDocs :=
  ⟨fun s => if s = "f" then 1 else 0, by unfold ParentDecreasing; decide, by decide⟩

/-- The two-node example satisfies the parent invariant. -/
lemma cexDocs_wellFormed : WellFormedParents cexDocs := by
  intro c hc pid hp
  simp only [cexDocs, List.mem_cons, List.not_mem_nil, or_false] at hc
  rcases hc with rfl | rfl
  · simp [cexF] at hp
  · refine ⟨cexF, by simp [cexDocs], ?_, rfl⟩
    simp only [cexA, Option.some.injEq] at hp
    simp [cexF, hp]

/-- Claim C1 counterexample: in the two-node forest, toggling the container
`cexF` (unsubscribed) whose descendant `cexA` is already subscribed changes
the `isSubscribed` flag of `cexF` alone — the descendant `cexA` is written
the target value it already holds, so its flag does not change, and the
changed set is a strict subset of the claimed set. -/
theorem subscribeDocument_changed_set_cex :
    IsForest cexDocs ∧ WellFormedParents cexDocs ∧
    (cexDocs.map Document.id).Nodup ∧
    cexF.canHaveChildren = true ∧
    InSubtree cexDocs cexF.id cexA ∧
    changedIds cexDocs (applyToggle cexDocs cexF) = [cexF.id] ∧
    cexA.id ∉ changedIds cexDocs (applyToggle cexDocs cexF) :=
  ⟨cexDocs_forest, cexDocs_wellFormed, by decide, rfl,
   InSubtree.base _ _ (by simp [cexDocs]) rfl, by decide, by decide⟩

/-- Claim C1 (amended): for every forest with well-formed parent references
and unique ids, a toggle on a node `n` of the list writes the target value to
exactly the ids `{n.id} ∪ transitive descendants` when `n.canHaveChildren`
and exactly `{n.id}` otherwise, and the set of nodes whose `isSubscribed`
actually changes is exactly the subset of those affected ids whose document's
prior value equals `n`'s prior value; no other node changes. -/
theorem subscribeDocument_changed_set (docs : List Document)
    (hf : IsForest docs) (hwf : WellFormedParents docs)
    (hnd : (docs.map Document.id).Nodup) (n : Document) (hn : n ∈ docs) :
    (∀ x, x ∈ changedIds docs (applyToggle docs n) ↔
        x ∈ documentsToUpdate docs n ∧
          ∃ d ∈ docs, d.id = x ∧ d.isSubscribed = n.isSubscribed) ∧
    ∀ x, x ∈ documentsToUpdate docs n ↔
        x = n.id ∨
          (n.canHaveChildren = true ∧ ∃ d, InSubtree docs n.id d ∧ d.id = x) := by
  obtain ⟨height, hdec, hbound⟩ := hf
  exact ⟨fun x => mem_changedIds_applyToggle docs n x,
    fun x => mem_documentsToUpdate docs height hdec hbound hwf hnd n hn x⟩

/-- Claim C1 witness at the two-node forest. -/
theorem subscribeDocument_changed_set_witness :
    IsForest cexDocs ∧ cexF ∈ cexDocs ∧
    (cexF.id ∈ changedIds cexDocs (applyToggle cexDocs cexF) ↔
      cexF.id ∈ documentsToUpdate cexDocs cexF ∧
        ∃ d ∈ cexDocs, d.id = cexF.id ∧ d.isSubscribed = cexF.isSubscribed) :=
  ⟨cexDocs_forest, by simp [cexDocs],
   (subscribeDocument_changed_set cexDocs cexDocs_forest cexDocs_wellFormed
      (by decide) cexF (by simp [cexDocs])).1 cexF.id⟩

/-- Claim C3 counterexample: in the two-node forest, toggling the container
`cexF` twice in succession (both persists succeeding, second issued on the
updated node) leaves the affected descendant `cexA` unsubscribed although it
was subscribed before the first toggle. -/
theorem subscribeDocument_retoggle_cex :
    cexA.id ∈ documentsToUpdate cexDocs cexF ∧
    cexA.isSubscribed = true ∧
    subscribeDocumentResult (subscribeDocumentResult cexDocs cexF PersistOutcome.ok)
        { cexF with isSubscribed := !cexF.isSubscribed } PersistOutcome.ok =
      [{ cexF with isSubscribed := false }, { cexA with isSubscribed := false }] :=
  ⟨by decide, rfl, by decide⟩

/-- Claim C3 (amended): toggling a node and then toggling it again (second
toggle issued on the optimistically updated node, both persistence calls
succeeding) leaves every node of the affected set with `isSubscribed` equal
to the toggled node's value before the first toggle, and every node outside
the affected set unchanged; so the toggled node itself, and every affected
node that initially agreed with it, are restored, while an affected
descendant that initially differed is not. -/
theorem subscribeDocument_retoggle_net (docs : List Document) (n : Document) :
    subscribeDocumentResult
        (subscribeDocumentResult docs n PersistOutcome.ok)
        { n with isSubscribed := !n.isSubscribed } PersistOutcome.ok =
      docs.map fun d =>
        if d.id ∈ documentsToUpdate docs n then
          { d with isSubscribed := n.isSubscribed }
        else d := by
  rw [subscribeDocumentResult_ok, subscribeDocumentResult_ok, applyToggle,
    applyToggle, List.map_map]
  have hS := documentsToUpdate_applyToggle docs n
    { n with isSubscribed := !n.isSubscribed } rfl rfl
  rw [show applyToggle docs n = docs.map (toggleWrite docs n) from rfl] at hS
  have hfun : (toggleWrite (docs.map (toggleWrite docs n))
        { n with isSubscribed := !n.isSubscribed }) ∘ toggleWrite docs n =
      fun d =>
        if d.id ∈ documentsToUpdate docs n then
          { d with isSubscribed := n.isSubscribed }
        else d := by
    funext d
    simp only [Function.comp]
    by_cases h : d.id ∈ documentsToUpdate docs n
    · rw [toggleWrite_apply_mem docs n d h,
        toggleWrite_apply_mem (docs.map (toggleWrite docs n))
          { n with isSubscribed := !n.isSubscribed }
          { d with isSubscribed := !n.isSubscribed } (by rw [hS]; exact h),
        if_pos h]
      show ({ d with isSubscribed := !!n.isSubscribed } : Document) =
        { d with isSubscribed := n.isSubscribed }
      rw [Bool.not_not]
    · rw [toggleWrite_apply_not_mem docs n d h,
        toggleWrite_apply_not_mem (docs.map (toggleWrite docs n))
          { n with isSubscribed := !n.isSubscribed } d (by rw [hS]; exact h),
        if_neg h]
  rw [hfun]

/-- Claim C10: on a finite document list forming a forest (acyclic parent
links landing on containers present in the list, unique ids),
`getDocumentsInFolder` terminates — the result is already stable at fuel
`docs.length`, so the unbounded recursion of the source is well defined —
and returns every document in the subtree of the queried folder. -/
theorem getDocumentsInFolder_forest_subtree (docs : List Document)
    (hf : IsForest docs) (hwf : WellFormedParents docs)
    (hnd : (docs.map Document.id).Nodup) (n : Document) (hn : n ∈ docs) :
    (∀ fuel, docs.length ≤ fuel →
        getDocumentsInFolder docs fuel n.id =
          getDocumentsInFolder docs docs.length n.id) ∧
    ∀ d, InSubtree docs n.id d →
      d ∈ getDocumentsInFolder docs docs.length n.id := by
  obtain ⟨height, hdec, hbound⟩ := hf
  refine ⟨fun fuel hfuel => ?_, fun d hd => ?_⟩
  · exact getDocumentsInFolder_stable docs height hdec hwf fuel n.id docs.length
      (le_trans (hbound n hn) hfuel) (hbound n hn)
  · exact mem_getDocumentsInFolder_complete docs height hdec hwf hnd hd
      docs.length (hbound n hn)

/-- Claim C10 witness at the two-node forest. -/
theorem getDocumentsInFolder_forest_subtree_witness :
    IsForest cexDocs ∧ WellFormedParents cexDocs ∧ cexF ∈ cexDocs ∧
    getDocumentsInFolder cexDocs 7 cexF.id =
      getDocumentsInFolder cexDocs cexDocs.length cexF.id ∧
    cexA ∈ getDocumentsInFolder cexDocs cexDocs.length cexF.id :=
  ⟨cexDocs_forest, cexDocs_wellFormed, by simp [cexDocs],
   (getDocumentsInFolder_forest_subtree cexDocs cexDocs_forest cexDocs_wellFormed
      (by decide) cexF (by simp [cexDocs])).1 7 (by decide),
   (getDocumentsInFolder_forest_subtree cexDocs cexDocs_forest cexDocs_wellFormed
      (by decide) cexF (by simp [cexDocs])).2 cexA
     (InSubtree.base _ _ (by simp [cexDocs]) rfl)⟩
